import Mathlib

/-!
Shallow embedding of `src/web/server.py` (the HTTP compression gateway).

Paths and text are modelled as Lean `String`s (Python `str`); the
character-level helpers below implement the exact Python string
operations the source uses (`str.replace`, `os.path.basename`,
`os.path.join`, `str.strip`, `str.splitlines`, `str.startswith`).
The filesystem visible to one request is modelled as a record of pure
functions (`FS`); the child process's observable behaviour
(exit code, stdout, stderr) is part of the request environment.
-/

namespace FileCompre

/-- Python truthiness for the `out_path` variable of `_run_cli`:
`None` and the empty string are both falsy. -/
def pyFalsy (o : Option String) : Bool := o.getD "" == ""

/-- Python `s.replace('..','')` at character level: a single left-to-right
scan removing non-overlapping occurrences of `".."`. -/
def replaceDotDot : List Char → List Char
  | [] => []
  | [c] => [c]
  | c1 :: c2 :: rest =>
    if c1 = '.' ∧ c2 = '.' then replaceDotDot rest
    else c1 :: replaceDotDot (c2 :: rest)

/-- Python `s.replace('/','_')` at character level. -/
def replaceSlash (l : List Char) : List Char :=
  l.map (fun c => if c = '/' then '_' else c)

/-- Whether the string contains `".."` as a substring (two adjacent dots). -/
def containsDotDot : List Char → Bool
  | [] => false
  | [_] => false
  | c1 :: c2 :: rest => (c1 == '.' && c2 == '.') || containsDotDot (c2 :: rest)

/-- Python whitespace class used by `str.strip()` (ASCII part). -/
def isSpaceChar (c : Char) : Bool :=
  c == ' ' || c == '\t' || c == '\n' || c == '\r' || c == '\x0b' || c == '\x0c'

/-- Python `str.strip()` at character level. -/
def trimL (l : List Char) : List Char :=
  ((l.dropWhile isSpaceChar).reverse.dropWhile isSpaceChar).reverse

/-- Python `str.strip()` on strings. -/
def pyStrip (s : String) : String := String.mk (trimL s.data)

/-- `posixpath.basename` at character level: the part after the last `'/'`. -/
def basenameL (l : List Char) : List Char :=
  (l.reverse.takeWhile (fun c => c != '/')).reverse

/-- `os.path.basename` on strings. -/
def basenameStr (s : String) : String := String.mk (basenameL s.data)

/-- The sanitization applied by the gateway:
`name.replace('..','').replace('/','_')` (lines 68 and 80 of the source). -/
def pySanitize (s : String) : String :=
  String.mk (replaceSlash (replaceDotDot s.data))

/-- `posixpath.join` for two components, as used by the source. -/
def pathJoin (a b : String) : String :=
  if b.data.head? = some '/' then b
  else if a.data = [] ∨ a.data.getLast? = some '/' then String.mk (a.data ++ b.data)
  else String.mk (a.data ++ '/' :: b.data)

/-- `p` lies strictly inside directory `dir`: after normalization `p` starts
with `dir` followed by a separator. -/
def withinDir (dir p : String) : Bool :=
  (dir.data ++ ['/']).isPrefixOf p.data

/-- Python `str.splitlines` restricted to `'\n'` separators (the separators
relevant to the gateway's stdout parsing), at character level. -/
def splitLinesL : List Char → List (List Char)
  | [] => [[]]
  | c :: rest =>
    if c = '\n' then [] :: splitLinesL rest
    else
      match splitLinesL rest with
      | [] => [[c]]
      | h :: t => (c :: h) :: t

/-- The literal marker scanned for on stdout (line 92 of the source). -/
def outputMarker : List Char := ['O', 'u', 't', 'p', 'u', 't', ':']

/-- Lines 90–94 of the source: scan stdout line by line for the first line
starting with `Output:`; its remainder, stripped, is the declared path. -/
def parseOutputLine (stdoutText : String) : Option String :=
  ((splitLinesL stdoutText.data).findSome? (fun line =>
    if outputMarker.isPrefixOf line then some (trimL (line.drop 7)) else none)).map String.mk

/-- Python `base.endswith('.comp')` at string level. -/
def endsWithComp (s : String) : Bool :=
  ['p', 'm', 'o', 'c', '.'].isPrefixOf s.data.reverse

/-- Python `base[:-5]`: drop the final five characters. -/
def dropComp (s : String) : String :=
  String.mk (s.data.reverse.drop 5).reverse

/-- `cgi.parse_header`'s main value: the text before the first `';'`,
stripped.  (The quote-aware splitting of `cgi._parseparam` coincides with a
plain split for the main content type, which never contains quotes.) -/
def parseHeaderType (ct : String) : String :=
  String.mk (trimL (ct.data.takeWhile (fun c => c != ';')))

/- Concrete working directories.  The source computes
`WEB_DIR = os.path.abspath(os.path.dirname(__file__))`; the embedding fixes
a concrete representative of that absolute directory. -/

def WEB_DIR : String := "/app/src/web"

def UPLOAD_DIR : String := pathJoin WEB_DIR "uploads"

def OUTPUT_DIR : String := pathJoin WEB_DIR "output"

/-- The two job modes of the gateway. -/
inductive Mode where
  | compress
  | decompress
deriving DecidableEq, Repr

/-- The filesystem state a request observes after the child process ran:
`os.path.exists`, `os.path.isfile`, `os.listdir(OUTPUT_DIR)` and
`os.path.getmtime` as pure functions. -/
structure FS where
  pathExists : String → Bool
  isFile : String → Bool
  listOutput : List String
  mtime : String → Nat

/-- The request environment of one job: whether `detect_cli` found the tool,
the child process's exit code and captured streams, and the filesystem
state used during output resolution. -/
structure RunEnv where
  cliFound : Bool
  exitCode : Int
  stdoutText : String
  stderrText : String
  fs : FS

/-- The observable content of one multipart upload request as seen by
`_handle_upload`: the Content-Type header (absent or present), whether the
parsed header carries a boundary parameter, whether a `file` field is
present, and that field's filename attribute (absent, empty, or a name). -/
structure UploadReq where
  contentType : Option String
  hasBoundary : Bool
  hasFileField : Bool
  filename : Option String

/-- Result of `_handle_upload`: stored path, an error message returned to
`do_POST`, or an uncaught Python exception (named by its class). -/
inductive UpResult where
  | ok (path : String)
  | err (msg : String)
  | crash (exc : String)
deriving DecidableEq, Repr

/-- Result of `_run_cli`, together with the invocation facts the claims
are about: the input path actually passed to the child process and the
`shutil.copy2` relocation performed, if any. -/
structure RunOutcome where
  outPath : Option String
  errMsg : Option String
  invokedPath : String
  copied : Option (String × String)
deriving DecidableEq, Repr

/-- The response of one `POST` request: an error response sent by `_fail`,
a streamed file (with its filename hint), or an uncaught Python exception
escaping the handler (no gateway-formed response at all). -/
inductive Outcome where
  | fail (code : Nat) (msg : String)
  | stream (path : String) (filename : String)
  | crash (exc : String)
deriving DecidableEq, Repr

/-- The storage path `os.path.join(UPLOAD_DIR, safe)` built by
`_handle_upload` from a client-supplied filename (lines 67–69). -/
def storagePath (fn : String) : String :=
  pathJoin UPLOAD_DIR (pySanitize (basenameStr fn))

/-- `_handle_upload` (lines 55–72).  `cgi.parse_header(None)` raises a
`TypeError` when the Content-Type header is absent; `pdict['boundary']`
raises a `KeyError` when the multipart header has no boundary; and the
final `open(path, 'wb')` raises an `IsADirectoryError` when the sanitized
name is empty, because the path then degenerates to the upload directory. -/
def handle_upload (r : UploadReq) : UpResult :=
  match r.contentType with
  | none => UpResult.crash "TypeError"
  | some ct =>
    if parseHeaderType ct ≠ "multipart/form-data" then UpResult.err "Invalid content type"
    else if !r.hasBoundary then UpResult.crash "KeyError"
    else if !r.hasFileField then UpResult.err "Missing file field"
    else
      match r.filename with
      | none => UpResult.err "Empty filename"
      | some fn =>
        if fn = "" then UpResult.err "Empty filename"
        else if pySanitize (basenameStr fn) = "" then UpResult.crash "IsADirectoryError"
        else UpResult.ok (storagePath fn)

/-- Tiers 1 and 2 of the output resolver (lines 89–103): the value of
`out_path` after the stdout scan and the naming-convention fallback,
before the existence check. -/
def tier12 (mode : Mode) (in_path : String) (stdoutText : String) : Option String :=
  let out0 := parseOutputLine stdoutText
  if pyFalsy out0 then
    let base := basenameStr in_path
    match mode with
    | Mode.compress => some (pathJoin OUTPUT_DIR (base ++ ".comp"))
    | Mode.decompress =>
      if endsWithComp base then some (pathJoin OUTPUT_DIR (dropComp base)) else out0
  else out0

/-- The regular files of the outbound area (line 106–107 of the source). -/
def candidateFiles (fs : FS) : List String :=
  (fs.listOutput.map (fun f => pathJoin OUTPUT_DIR f)).filter fs.isFile

/-- Python `max(candidates, key=getmtime)`: first element of maximal
modification time, `none` on an empty list. -/
def maxByMtime (fs : FS) : List String → Option String
  | [] => none
  | x :: xs => some (xs.foldl (fun best p => if fs.mtime best < fs.mtime p then p else best) x)

/-- Tier 4 of the output resolver (lines 105–109): the most recently
modified regular file of the outbound area. -/
def tier4 (fs : FS) : Option String := maxByMtime fs (candidateFiles fs)

/-- The full output resolution of `_run_cli` (lines 89–110): the value of
`out_path` returned on a zero exit code. -/
def resolveOut (fs : FS) (mode : Mode) (in_path : String) (stdoutText : String) :
    Option String :=
  let out1 := tier12 mode in_path stdoutText
  if pyFalsy out1 || !fs.pathExists (out1.getD "") then
    match tier4 fs with
    | some p => some p
    | none => out1
  else out1

/-- `_run_cli` (lines 74–110): tool-availability check, decompress-mode
input relocation, child invocation (its observable behaviour supplied by
`env`), error propagation and output resolution. -/
def run_cli (env : RunEnv) (mode : Mode) (in_path0 : String) : RunOutcome :=
  if !env.cliFound then
    { outPath := none, errMsg := some "CLI not found on server",
      invokedPath := in_path0, copied := none }
  else
    let reloc : String × Option (String × String) :=
      match mode with
      | Mode.compress => (in_path0, none)
      | Mode.decompress =>
        let safe := pySanitize (basenameStr in_path0)
        if OUTPUT_DIR.data.isPrefixOf in_path0.data then (in_path0, none)
        else
          let target := pathJoin OUTPUT_DIR safe
          (target, some (in_path0, target))
    let in_path := reloc.1
    if env.exitCode ≠ 0 then
      { outPath := none,
        errMsg := some (if pyStrip env.stderrText = "" then "Compression failed"
                        else pyStrip env.stderrText),
        invokedPath := in_path, copied := reloc.2 }
    else
      { outPath := resolveOut env.fs mode in_path env.stdoutText,
        errMsg := none, invokedPath := in_path, copied := reloc.2 }

/-- `do_POST` (lines 112–132): route check, upload, job run, and either an
error response via `_fail` or the streamed resolved file.  On an unresolved
`out_path` the handler raises `TypeError` at `os.path.basename(None)`
(line 125); on a resolved path that is not an openable file it raises
`FileNotFoundError` / `IsADirectoryError` at `open(out_path, 'rb')`
(line 131); both escape the handler uncaught. -/
def do_POST (req : UploadReq) (env : RunEnv) (urlPath : String) : Outcome :=
  if urlPath = "/compress" ∨ urlPath = "/decompress" then
    match handle_upload req with
    | UpResult.crash e => Outcome.crash e
    | UpResult.err e => Outcome.fail 400 e
    | UpResult.ok in_path =>
      let mode := if urlPath = "/compress" then Mode.compress else Mode.decompress
      let r := run_cli env mode in_path
      match r.errMsg with
      | some e => Outcome.fail 500 e
      | none =>
        match r.outPath with
        | none => Outcome.crash "TypeError"
        | some out_path =>
          if env.fs.isFile out_path then Outcome.stream out_path (basenameStr out_path)
          else Outcome.crash "FileNotFoundError"
  else Outcome.fail 404 "Not found"

/-- Tier-2 candidate as §4.4's edge-case policy of the spec words it: for a
decompress job whose base name does not end in the compressed suffix, "the
original base name is used unmodified as the candidate" (placed, like every
other tier-2 candidate, in the outbound area), which is then subjected to
the existence check.  The code instead leaves the candidate unset in that
case (compare `tier12`). -/
def tier12SpecC6 (mode : Mode) (in_path : String) (stdoutText : String) : Option String :=
  let out0 := parseOutputLine stdoutText
  if pyFalsy out0 then
    let base := basenameStr in_path
    match mode with
    | Mode.compress => some (pathJoin OUTPUT_DIR (base ++ ".comp"))
    | Mode.decompress =>
      if endsWithComp base then some (pathJoin OUTPUT_DIR (dropComp base))
      else some (pathJoin OUTPUT_DIR base)
  else out0

/-- The output resolution that §4.4 of the spec describes, differing from
`resolveOut` only in using `tier12SpecC6` for the tier-2 candidate. -/
def resolveOutSpecC6 (fs : FS) (mode : Mode) (in_path : String) (stdoutText : String) :
    Option String :=
  let out1 := tier12SpecC6 mode in_path stdoutText
  if pyFalsy out1 || !fs.pathExists (out1.getD "") then
    match tier4 fs with
    | some p => some p
    | none => out1
  else out1

/-! ### Concrete request environments used as test states -/

/-- A well-formed multipart upload request carrying filename `a.txt`. -/
def reqA : UploadReq :=
  { contentType := some "multipart/form-data; boundary=x", hasBoundary := true,
    hasFileField := true, filename := some "a.txt" }

/-- A filesystem with no files visible and an empty outbound directory. -/
def fsEmpty : FS :=
  { pathExists := fun _ => false, isFile := fun _ => false,
    listOutput := [], mtime := fun _ => 0 }

/-- A filesystem on which only `/etc/passwd` exists. -/
def fsEtc : FS :=
  { pathExists := fun p => p == "/etc/passwd", isFile := fun p => p == "/etc/passwd",
    listOutput := [], mtime := fun _ => 0 }

/-- A run whose child printed `Output: /etc/passwd` and exited 0. -/
def envEvil : RunEnv :=
  { cliFound := true, exitCode := 0, stdoutText := "Output: /etc/passwd",
    stderrText := "", fs := fsEtc }

/-- A run whose child exited 0, printed nothing, and produced no file:
the outbound area is empty at resolution time. -/
def envNoOutput : RunEnv :=
  { cliFound := true, exitCode := 0, stdoutText := "", stderrText := "", fs := fsEmpty }

/-- A filesystem where the compress tier-2 candidate `a.txt.comp` exists in
the outbound area, which also lists an unrelated name. -/
def fsW : FS :=
  { pathExists := fun p => p == "/app/src/web/output/a.txt.comp",
    isFile := fun p => p == "/app/src/web/output/a.txt.comp",
    listOutput := ["b.bin"], mtime := fun _ => 0 }

/-- A run over `fsW` whose child printed nothing. -/
def envW : RunEnv :=
  { cliFound := true, exitCode := 0, stdoutText := "", stderrText := "", fs := fsW }

/-- The outbound area right after a relocated decompress input `file.txt`
was copied there (it exists and is listed) while an older run's artifact
`other.bin` is also present with a more recent modification time. -/
def fsC6 : FS :=
  { pathExists := fun p =>
      p == "/app/src/web/output/file.txt" || p == "/app/src/web/output/other.bin",
    isFile := fun p =>
      p == "/app/src/web/output/file.txt" || p == "/app/src/web/output/other.bin",
    listOutput := ["file.txt", "other.bin"],
    mtime := fun p => if p == "/app/src/web/output/other.bin" then 10 else 5 }

/-! ### Properties of the sanitization and path helpers -/

theorem replaceDotDot_head : ∀ (l : List Char), l.head? ≠ some '.' →
    (replaceDotDot l).head? = l.head?
  | [], _ => rfl
  | [_], _ => rfl
  | c1 :: c2 :: _, h => by
    have hc1 : c1 ≠ '.' := by
      intro he
      exact h (by rw [List.head?_cons, he])
    rw [replaceDotDot, if_neg (fun hand => hc1 hand.1), List.head?_cons, List.head?_cons]

theorem containsDotDot_replaceDotDot (l : List Char) :
    containsDotDot (replaceDotDot l) = false := by
  induction l using replaceDotDot.induct with
  | case1 => rfl
  | case2 c => rfl
  | case3 c1 c2 rest h ih =>
    rw [replaceDotDot, if_pos h]
    exact ih
  | case4 c1 c2 rest h ih =>
    rw [replaceDotDot, if_neg h]
    cases hR : replaceDotDot (c2 :: rest) with
    | nil => rfl
    | cons d R =>
      rw [hR] at ih
      rw [containsDotDot, ih, Bool.or_false]
      by_cases hc1 : c1 = '.'
      · have hc2 : c2 ≠ '.' := fun hc2 => h ⟨hc1, hc2⟩
        have hd : (replaceDotDot (c2 :: rest)).head? = (c2 :: rest).head? :=
          replaceDotDot_head _ (by
            rw [List.head?_cons]
            intro he
            exact hc2 (Option.some.injEq _ _ ▸ he))
        rw [hR, List.head?_cons, List.head?_cons] at hd
        have hdc : d = c2 := Option.some.injEq _ _ ▸ hd
        rw [hdc]
        simp [hc2]
      · simp [hc1]

theorem not_slash_mem_replaceSlash (l : List Char) : '/' ∉ replaceSlash l := by
  intro h
  obtain ⟨c, _, hc⟩ := List.mem_map.mp h
  by_cases h' : c = '/'
  · rw [if_pos h'] at hc
    exact absurd hc (by decide)
  · rw [if_neg h'] at hc
    exact h' hc

theorem repChar_beq_dot (c : Char) :
    ((if c = '/' then '_' else c) == '.') = (c == '.') := by
  by_cases h : c = '/'
  · subst h; decide
  · rw [if_neg h]

theorem containsDotDot_replaceSlash : ∀ l, containsDotDot (replaceSlash l) = containsDotDot l
  | [] => rfl
  | [_] => rfl
  | c1 :: c2 :: rest => by
    have ih := containsDotDot_replaceSlash (c2 :: rest)
    show containsDotDot (_ :: _ :: List.map _ rest) = _
    rw [containsDotDot, containsDotDot, repChar_beq_dot, repChar_beq_dot]
    exact congrArg (_ || ·) ih

theorem not_slash_mem_basenameL (l : List Char) : '/' ∉ basenameL l := by
  intro h
  rw [basenameL, List.mem_reverse] at h
  have := List.mem_takeWhile_imp h
  exact absurd this (by decide)

theorem not_slash_mem_pySanitize (s : String) : '/' ∉ (pySanitize s).data :=
  not_slash_mem_replaceSlash _

theorem head_ne_slash_of_not_mem {l : List Char} (h : '/' ∉ l) :
    l.head? ≠ some '/' := by
  cases l with
  | nil => intro h2; cases h2
  | cons c t =>
    rw [List.head?_cons]
    intro h2
    have : c = '/' := Option.some.injEq _ _ ▸ h2
    exact h (this ▸ List.mem_cons_self c t)

theorem pathJoin_data (a b : String) (hb : b.data.head? ≠ some '/')
    (ha1 : a.data ≠ []) (ha2 : a.data.getLast? ≠ some '/') :
    (pathJoin a b).data = a.data ++ '/' :: b.data := by
  rw [pathJoin, if_neg hb, if_neg (not_or.mpr ⟨ha1, ha2⟩)]

theorem isPrefixOf_append_slash (x r : List Char) :
    (x ++ ['/']).isPrefixOf (x ++ '/' :: r) = true := by
  apply List.isPrefixOf_iff_prefix.mpr
  rw [show x ++ '/' :: r = (x ++ ['/']) ++ r by simp]
  exact List.prefix_append _ _

theorem withinDir_of_data {dir p : String} {r : List Char}
    (h : p.data = dir.data ++ '/' :: r) : withinDir dir p = true := by
  rw [withinDir, h]
  exact isPrefixOf_append_slash _ _

theorem withinDir_pathJoin_output (b : String) (hb : b.data.head? ≠ some '/') :
    withinDir OUTPUT_DIR (pathJoin OUTPUT_DIR b) = true :=
  withinDir_of_data (pathJoin_data OUTPUT_DIR b hb (by decide) (by decide))

theorem output_not_prefix_upload (rest : List Char) :
    List.isPrefixOf OUTPUT_DIR.data (UPLOAD_DIR.data ++ rest) = false := rfl

theorem output_slash_not_prefix_upload (rest : List Char) :
    List.isPrefixOf (OUTPUT_DIR.data ++ ['/']) (UPLOAD_DIR.data ++ rest) = false := rfl

/-! ### Properties of the newest-file selection -/

theorem foldl_best_mem (fs : FS) : ∀ (xs : List String) (b : String),
    xs.foldl (fun best p => if fs.mtime best < fs.mtime p then p else best) b = b ∨
    xs.foldl (fun best p => if fs.mtime best < fs.mtime p then p else best) b ∈ xs
  | [], _ => Or.inl rfl
  | x :: xs, b => by
    rw [List.foldl_cons]
    rcases foldl_best_mem fs xs (if fs.mtime b < fs.mtime x then x else b) with h | h
    · rw [h]
      by_cases hx : fs.mtime b < fs.mtime x
      · rw [if_pos hx]; exact Or.inr (List.mem_cons_self _ _)
      · rw [if_neg hx]; exact Or.inl rfl
    · exact Or.inr (List.mem_cons_of_mem _ h)

theorem mtime_le_step (fs : FS) (b x : String) :
    fs.mtime b ≤ fs.mtime (if fs.mtime b < fs.mtime x then x else b) := by
  by_cases hx : fs.mtime b < fs.mtime x
  · rw [if_pos hx]; exact Nat.le_of_lt hx
  · rw [if_neg hx]

theorem mtime_arg_le_step (fs : FS) (b x : String) :
    fs.mtime x ≤ fs.mtime (if fs.mtime b < fs.mtime x then x else b) := by
  by_cases hx : fs.mtime b < fs.mtime x
  · rw [if_pos hx]
  · rw [if_neg hx]; exact Nat.le_of_not_lt hx

theorem foldl_best_ge_init (fs : FS) : ∀ (xs : List String) (b : String),
    fs.mtime b ≤ fs.mtime (xs.foldl (fun best p => if fs.mtime best < fs.mtime p then p else best) b)
  | [], _ => Nat.le_refl _
  | x :: xs, b => by
    rw [List.foldl_cons]
    exact Nat.le_trans (mtime_le_step fs b x) (foldl_best_ge_init fs xs _)

theorem foldl_best_ge_mem (fs : FS) : ∀ (xs : List String) (b q : String), q ∈ xs →
    fs.mtime q ≤ fs.mtime (xs.foldl (fun best p => if fs.mtime best < fs.mtime p then p else best) b)
  | x :: xs, b, q, hq => by
    rw [List.foldl_cons]
    rcases List.mem_cons.mp hq with h | h
    · subst h
      exact Nat.le_trans (mtime_arg_le_step fs b q) (foldl_best_ge_init fs xs _)
    · exact foldl_best_ge_mem fs xs _ q h

theorem maxByMtime_mem {fs : FS} {l : List String} {p : String}
    (h : maxByMtime fs l = some p) : p ∈ l := by
  cases l with
  | nil => cases h
  | cons x xs =>
    rw [maxByMtime, Option.some.injEq] at h
    rcases foldl_best_mem fs xs x with h2 | h2
    · rw [← h, h2]; exact List.mem_cons_self _ _
    · rw [← h]; exact List.mem_cons_of_mem _ h2

theorem maxByMtime_ge {fs : FS} {l : List String} {p : String}
    (h : maxByMtime fs l = some p) : ∀ q ∈ l, fs.mtime q ≤ fs.mtime p := by
  intro q hq
  cases l with
  | nil => cases h
  | cons x xs =>
    rw [maxByMtime, Option.some.injEq] at h
    rcases List.mem_cons.mp hq with h2 | h2
    · subst h2; rw [← h]; exact foldl_best_ge_init fs xs q
    · rw [← h]; exact foldl_best_ge_mem fs xs x q h2

/-! ### Inversion and bridging lemmas for the pipeline -/

theorem ne_empty_of_data {s : String} {x : List Char} {r : List Char}
    (h : s.data = x ++ '/' :: r) : s ≠ "" := by
  intro he
  rw [he] at h
  cases x <;> cases h

theorem head_ne_slash_append_comp (s : String) (h : '/' ∉ s.data) :
    (s ++ ".comp").data.head? ≠ some '/' := by
  rw [String.data_append]
  cases hs : s.data with
  | nil => decide
  | cons c t =>
    rw [List.cons_append, List.head?_cons]
    intro h2
    have hc : c = '/' := Option.some.injEq _ _ ▸ h2
    exact h (hs ▸ hc ▸ List.mem_cons_self c t)

theorem storagePath_data (fn : String) :
    (storagePath fn).data = UPLOAD_DIR.data ++ '/' :: (pySanitize (basenameStr fn)).data :=
  pathJoin_data _ _ (head_ne_slash_of_not_mem (not_slash_mem_pySanitize _))
    (by decide) (by decide)

theorem handle_upload_ok {r : UploadReq} {p : String}
    (h : handle_upload r = UpResult.ok p) :
    ∃ fn, r.filename = some fn ∧ pySanitize (basenameStr fn) ≠ "" ∧ p = storagePath fn := by
  obtain ⟨ct, hb, hf, fn⟩ := r
  cases ct with
  | none => cases h
  | some ctv =>
    cases fn with
    | none =>
      simp only [handle_upload] at h
      split_ifs at h <;> cases h
    | some fnv =>
      simp only [handle_upload] at h
      split_ifs at h with h1 h2 h3 h4 h5
      all_goals try cases h
      exact ⟨fnv, rfl, h5, rfl⟩

theorem pyFalsy_some_of_ne {p : String} (h : p ≠ "") : pyFalsy (some p) = false := by
  rw [pyFalsy, Option.getD_some]
  exact beq_eq_false_iff_ne.mpr h

theorem pyFalsy_cases {o : Option String} (h : pyFalsy o = true) :
    o = none ∨ o = some "" := by
  cases o with
  | none => exact Or.inl rfl
  | some s =>
    rw [pyFalsy, Option.getD_some, beq_iff_eq] at h
    exact Or.inr (by rw [h])

theorem dropComp_subset (s : String) : (dropComp s).data ⊆ s.data := by
  intro a ha
  rw [dropComp] at ha
  rw [show (String.mk (s.data.reverse.drop 5).reverse).data =
        (s.data.reverse.drop 5).reverse from rfl, List.mem_reverse] at ha
  have h2 := List.drop_subset _ _ ha
  rwa [List.mem_reverse] at h2

theorem tier12_shape (mode : Mode) (ip st : String)
    (hparse : pyFalsy (parseOutputLine st) = true) :
    tier12 mode ip st = parseOutputLine st ∨
    (∃ b : String, tier12 mode ip st = some (pathJoin OUTPUT_DIR b) ∧
      b.data.head? ≠ some '/') := by
  cases mode with
  | compress =>
    right
    refine ⟨basenameStr ip ++ ".comp", ?_, ?_⟩
    · simp only [tier12, hparse, if_true]
    · exact head_ne_slash_append_comp _ (not_slash_mem_basenameL _)
  | decompress =>
    by_cases hs : endsWithComp (basenameStr ip) = true
    · right
      refine ⟨dropComp (basenameStr ip), ?_, ?_⟩
      · simp only [tier12, hparse, if_true, hs]
      · exact head_ne_slash_of_not_mem
          (fun hm => not_slash_mem_basenameL ip.data (dropComp_subset _ hm))
    · left
      simp only [tier12, hparse, if_true]
      rw [if_neg hs]

theorem resolveOut_falsy (fs : FS) (mode : Mode) (ip st : String)
    (h : pyFalsy (tier12 mode ip st) = true) :
    resolveOut fs mode ip st =
      (match tier4 fs with
       | some p => some p
       | none => tier12 mode ip st) := by
  simp only [resolveOut, h, Bool.true_or, if_true]

theorem resolveOut_not_exists (fs : FS) (mode : Mode) (ip st : String)
    (h : fs.pathExists ((tier12 mode ip st).getD "") = false) :
    resolveOut fs mode ip st =
      (match tier4 fs with
       | some p => some p
       | none => tier12 mode ip st) := by
  simp only [resolveOut, h, Bool.not_false, Bool.or_true, if_true]

theorem candidateFiles_within (fs : FS)
    (hl : ∀ f ∈ fs.listOutput, '/' ∉ f.data) :
    ∀ x ∈ candidateFiles fs, withinDir OUTPUT_DIR x = true := by
  intro x hx
  rw [candidateFiles] at hx
  have hx2 := List.mem_of_mem_filter hx
  obtain ⟨f, hf, rfl⟩ := List.mem_map.mp hx2
  exact withinDir_pathJoin_output f (head_ne_slash_of_not_mem (hl f hf))

theorem startswith_of_within {q : String} (h : withinDir OUTPUT_DIR q = true) :
    OUTPUT_DIR.data.isPrefixOf q.data = true := by
  rw [withinDir] at h
  apply List.isPrefixOf_iff_prefix.mpr
  exact (List.prefix_append _ _).trans (List.isPrefixOf_iff_prefix.mp h)

theorem run_cli_copied_shape (env : RunEnv) (mode : Mode) (q : String) :
    (run_cli env mode q).copied = none ∨
    (run_cli env mode q).copied =
      some (q, pathJoin OUTPUT_DIR (pySanitize (basenameStr q))) := by
  by_cases hcli : env.cliFound = true
  · cases mode with
    | compress =>
      simp only [run_cli, hcli, Bool.not_true, Bool.false_eq_true, if_false]
      split <;> exact Or.inl rfl
    | decompress =>
      by_cases hpre : OUTPUT_DIR.data.isPrefixOf q.data = true
      · simp only [run_cli, hcli, Bool.not_true, Bool.false_eq_true, if_false, hpre, if_true]
        split <;> exact Or.inl rfl
      · have hp : OUTPUT_DIR.data.isPrefixOf q.data = false := Bool.eq_false_iff.mpr hpre
        simp only [run_cli, hcli, hp, Bool.not_true, Bool.false_eq_true, if_false]
        split <;> exact Or.inr rfl
  · have hc : env.cliFound = false := Bool.eq_false_iff.mpr hcli
    simp only [run_cli, hc, Bool.not_false, if_true]
    exact Or.inl trivial

theorem run_cli_no_reloc (env : RunEnv) (mode : Mode) (q : String)
    (h : mode = Mode.compress ∨ OUTPUT_DIR.data.isPrefixOf q.data = true) :
    (run_cli env mode q).copied = none ∧ (run_cli env mode q).invokedPath = q := by
  by_cases hcli : env.cliFound = true
  · rcases h with h | h
    · subst h
      simp only [run_cli, hcli, Bool.not_true, Bool.false_eq_true, if_false]
      split <;> exact ⟨rfl, rfl⟩
    · cases mode with
      | compress =>
        simp only [run_cli, hcli, Bool.not_true, Bool.false_eq_true, if_false]
        split <;> exact ⟨rfl, rfl⟩
      | decompress =>
        simp only [run_cli, hcli, Bool.not_true, Bool.false_eq_true, if_false, h, if_true]
        split <;> exact ⟨rfl, rfl⟩
  · have hc : env.cliFound = false := Bool.eq_false_iff.mpr hcli
    simp only [run_cli, hc, Bool.not_false, if_true]
    exact ⟨trivial, trivial⟩

theorem run_cli_reloc (env : RunEnv) (q : String)
    (hcli : env.cliFound = true)
    (hpre : OUTPUT_DIR.data.isPrefixOf q.data = false) :
    (run_cli env Mode.decompress q).copied =
      some (q, pathJoin OUTPUT_DIR (pySanitize (basenameStr q))) ∧
    (run_cli env Mode.decompress q).invokedPath =
      pathJoin OUTPUT_DIR (pySanitize (basenameStr q)) := by
  simp only [run_cli, hcli, hpre, Bool.not_true, Bool.false_eq_true, if_false]
  split <;> exact ⟨rfl, rfl⟩

/-! ### Claim theorems -/

/-- C3: for every client-supplied filename containing `..` or a path
separator, the sanitized storage name (base name, `..` substrings removed,
`/` replaced by `_`) contains neither `..` nor any path separator. -/
theorem upload_sanitization_safe (fn : String)
    (h : containsDotDot fn.data = true ∨ '/' ∈ fn.data) :
    containsDotDot (pySanitize (basenameStr fn)).data = false ∧
    '/' ∉ (pySanitize (basenameStr fn)).data := by
  refine ⟨?_, not_slash_mem_pySanitize _⟩
  show containsDotDot (replaceSlash (replaceDotDot (basenameStr fn).data)) = false
  rw [containsDotDot_replaceSlash]
  exact containsDotDot_replaceDotDot _

theorem upload_sanitization_safe_witness :
    (containsDotDot "../x".data = true ∨ '/' ∈ "../x".data) ∧
    (containsDotDot (pySanitize (basenameStr "../x")).data = false ∧
     '/' ∉ (pySanitize (basenameStr "../x")).data) :=
  ⟨by decide, upload_sanitization_safe "../x" (by decide)⟩

/-- C4: whenever the first `Output:` line of stdout carries a non-empty
trimmed remainder naming an existing regular file, the resolver returns
exactly that path, regardless of mode, input path and the rest of the
filesystem: tier 1 takes precedence over tiers 2–4. -/
theorem tier1_precedence (fs : FS) (mode : Mode) (in_path st p : String)
    (hp : parseOutputLine st = some p) (hne : p ≠ "")
    (hex : fs.pathExists p = true) (hfile : fs.isFile p = true) :
    resolveOut fs mode in_path st = some p := by
  have h0 : pyFalsy (some p) = false := pyFalsy_some_of_ne hne
  have h12 : tier12 mode in_path st = some p := by
    rw [tier12, hp]
    simp only [h0, Bool.false_eq_true, if_false]
  rw [resolveOut, h12]
  simp only [h0, Option.getD_some, hex, Bool.not_true, Bool.false_or, Bool.or_false,
    Bool.false_eq_true, if_false]

theorem tier1_precedence_witness :
    (parseOutputLine "Output: /app/src/web/output/z.bin" = some "/app/src/web/output/z.bin") ∧
    resolveOut
      { pathExists := fun p => p == "/app/src/web/output/z.bin",
        isFile := fun p => p == "/app/src/web/output/z.bin",
        listOutput := [], mtime := fun _ => 0 }
      Mode.compress "/app/src/web/uploads/a.txt" "Output: /app/src/web/output/z.bin" =
      some "/app/src/web/output/z.bin" :=
  ⟨by decide,
   tier1_precedence _ Mode.compress _ _ _ (by decide) (by decide) (by decide) (by decide)⟩

/-- C5: for a compress job whose stdout has no `Output:` line, if the file
named after the input's base name with the `.comp` suffix appended exists
in the outbound area, the resolver returns that file's path (tier 2). -/
theorem tier2_compress (fs : FS) (in_path st : String)
    (hp : parseOutputLine st = none)
    (hex : fs.pathExists (pathJoin OUTPUT_DIR (basenameStr in_path ++ ".comp")) = true)
    (hfile : fs.isFile (pathJoin OUTPUT_DIR (basenameStr in_path ++ ".comp")) = true) :
    resolveOut fs Mode.compress in_path st =
      some (pathJoin OUTPUT_DIR (basenameStr in_path ++ ".comp")) := by
  have hdata : (pathJoin OUTPUT_DIR (basenameStr in_path ++ ".comp")).data =
      OUTPUT_DIR.data ++ '/' :: (basenameStr in_path ++ ".comp").data :=
    pathJoin_data _ _
      (head_ne_slash_append_comp _ (fun hm => not_slash_mem_basenameL _ hm))
      (by decide) (by decide)
  have hne : pathJoin OUTPUT_DIR (basenameStr in_path ++ ".comp") ≠ "" :=
    ne_empty_of_data hdata
  have h0 : pyFalsy (some (pathJoin OUTPUT_DIR (basenameStr in_path ++ ".comp"))) = false :=
    pyFalsy_some_of_ne hne
  have h12 : tier12 Mode.compress in_path st =
      some (pathJoin OUTPUT_DIR (basenameStr in_path ++ ".comp")) := by
    rw [tier12, hp]
    rfl
  rw [resolveOut, h12]
  simp only [h0, Option.getD_some, hex, Bool.not_true, Bool.false_or, Bool.or_false,
    Bool.false_eq_true, if_false]

theorem tier2_compress_witness :
    (parseOutputLine "done" = none) ∧
    resolveOut
      { pathExists := fun p => p == "/app/src/web/output/a.txt.comp",
        isFile := fun p => p == "/app/src/web/output/a.txt.comp",
        listOutput := ["a.txt.comp"], mtime := fun _ => 0 }
      Mode.compress "/app/src/web/uploads/a.txt" "done" =
      some "/app/src/web/output/a.txt.comp" := by
  constructor
  · decide
  · have h := tier2_compress
      { pathExists := fun p => p == "/app/src/web/output/a.txt.comp",
        isFile := fun p => p == "/app/src/web/output/a.txt.comp",
        listOutput := ["a.txt.comp"], mtime := fun _ => 0 }
      "/app/src/web/uploads/a.txt" "done" (by decide) (by decide) (by decide)
    exact h

theorem do_POST_upload_err (req : UploadReq) (env : RunEnv) (urlPath e : String)
    (hpath : urlPath = "/compress" ∨ urlPath = "/decompress")
    (h : handle_upload req = UpResult.err e) :
    do_POST req env urlPath = Outcome.fail 400 e := by
  rw [do_POST, if_pos hpath, h]

theorem do_POST_upload_crash (req : UploadReq) (env : RunEnv) (urlPath e : String)
    (hpath : urlPath = "/compress" ∨ urlPath = "/decompress")
    (h : handle_upload req = UpResult.crash e) :
    do_POST req env urlPath = Outcome.crash e := by
  rw [do_POST, if_pos hpath, h]

theorem run_cli_err (env : RunEnv) (mode : Mode) (ip : String)
    (hcli : env.cliFound = true) (hexit : env.exitCode ≠ 0) :
    (run_cli env mode ip).errMsg =
      some (if pyStrip env.stderrText = "" then "Compression failed"
            else pyStrip env.stderrText) := by
  cases mode <;>
    simp only [run_cli, hcli, Bool.not_true, Bool.false_eq_true, if_false, if_pos hexit] <;>
    split <;> rfl

theorem do_POST_run_err (req : UploadReq) (env : RunEnv) (urlPath up msg : String)
    (hpath : urlPath = "/compress" ∨ urlPath = "/decompress")
    (hup : handle_upload req = UpResult.ok up)
    (herr : ∀ mode, (run_cli env mode up).errMsg = some msg) :
    do_POST req env urlPath = Outcome.fail 500 msg := by
  rw [do_POST, if_pos hpath, hup]
  simp only [herr]

/-- C7: when the external tool exits non-zero, the request fails with a 500
response whose body is exactly the stripped stderr text when that is
non-empty, and the generic phrase `Compression failed` when stderr is
empty. -/
theorem tool_failure_propagation (req : UploadReq) (env : RunEnv) (up urlPath : String)
    (hpath : urlPath = "/compress" ∨ urlPath = "/decompress")
    (hup : handle_upload req = UpResult.ok up)
    (hcli : env.cliFound = true)
    (hexit : env.exitCode ≠ 0) :
    (pyStrip env.stderrText ≠ "" →
      do_POST req env urlPath = Outcome.fail 500 (pyStrip env.stderrText)) ∧
    (env.stderrText = "" →
      do_POST req env urlPath = Outcome.fail 500 "Compression failed") := by
  constructor
  · intro hne
    apply do_POST_run_err req env urlPath up _ hpath hup
    intro mode
    rw [run_cli_err env mode up hcli hexit, if_neg hne]
  · intro he
    apply do_POST_run_err req env urlPath up _ hpath hup
    intro mode
    rw [run_cli_err env mode up hcli hexit, if_pos (by rw [he]; rfl)]

theorem tool_failure_propagation_witness :
    do_POST
      { contentType := some "multipart/form-data; boundary=x", hasBoundary := true,
        hasFileField := true, filename := some "a.txt" }
      { cliFound := true, exitCode := 1, stdoutText := "", stderrText := " bad input\n",
        fs := { pathExists := fun _ => false, isFile := fun _ => false,
                listOutput := [], mtime := fun _ => 0 } }
      "/compress" = Outcome.fail 500 "bad input" := by
  have h := tool_failure_propagation
    { contentType := some "multipart/form-data; boundary=x", hasBoundary := true,
      hasFileField := true, filename := some "a.txt" }
    { cliFound := true, exitCode := 1, stdoutText := "", stderrText := " bad input\n",
      fs := { pathExists := fun _ => false, isFile := fun _ => false,
              listOutput := [], mtime := fun _ => 0 } }
    "/app/src/web/uploads/a.txt" "/compress" (Or.inl rfl) (by decide) rfl (by decide)
  exact h.1 (by decide)

/-- C9 (amended): a POST to `/compress` or `/decompress` whose request
carries a Content-Type header whose main value is not
`multipart/form-data` is answered with a 400 response reading
`Invalid content type`; a request with no Content-Type header at all
instead makes `cgi.parse_header(None)` raise an uncaught `TypeError`, so
no gateway-formed response is produced. -/
theorem content_type_check (req : UploadReq) (env : RunEnv) (urlPath : String)
    (hpath : urlPath = "/compress" ∨ urlPath = "/decompress") :
    (∀ ct, req.contentType = some ct → parseHeaderType ct ≠ "multipart/form-data" →
      do_POST req env urlPath = Outcome.fail 400 "Invalid content type") ∧
    (req.contentType = none → do_POST req env urlPath = Outcome.crash "TypeError") := by
  constructor
  · intro ct hct hne
    apply do_POST_upload_err req env urlPath _ hpath
    simp only [handle_upload, hct]
    rw [if_pos hne]
  · intro hct
    apply do_POST_upload_crash req env urlPath _ hpath
    simp only [handle_upload, hct]

theorem content_type_check_witness :
    do_POST
      { contentType := some "text/plain", hasBoundary := false,
        hasFileField := false, filename := none }
      { cliFound := true, exitCode := 0, stdoutText := "", stderrText := "",
        fs := { pathExists := fun _ => false, isFile := fun _ => false,
                listOutput := [], mtime := fun _ => 0 } }
      "/compress" = Outcome.fail 400 "Invalid content type" :=
  (content_type_check
    { contentType := some "text/plain", hasBoundary := false,
      hasFileField := false, filename := none }
    { cliFound := true, exitCode := 0, stdoutText := "", stderrText := "",
      fs := { pathExists := fun _ => false, isFile := fun _ => false,
              listOutput := [], mtime := fun _ => 0 } }
    "/compress" (Or.inl rfl)).1 "text/plain" rfl (by decide)

/-- C9 (counterexample): a POST to `/compress` carrying no Content-Type
header does not get the claimed 400 response: `cgi.parse_header(None)`
raises an uncaught `TypeError`, so the handler produces no response at
all (`Outcome.crash`, a different constructor from `Outcome.fail 400 _`). -/
theorem content_type_missing_counterexample :
    do_POST
      { contentType := none, hasBoundary := true,
        hasFileField := true, filename := some "a.txt" }
      { cliFound := true, exitCode := 0, stdoutText := "", stderrText := "",
        fs := { pathExists := fun _ => false, isFile := fun _ => false,
                listOutput := [], mtime := fun _ => 0 } }
      "/compress" = Outcome.crash "TypeError" := by decide

/-- C10: with a well-formed multipart request carrying a `file` field, the
upload receiver answers `Empty filename` exactly when the filename is
missing or empty; the non-empty filename `".."` sanitizes to the empty
string, is not rejected, makes the storage path degenerate to the upload
directory itself (`UPLOAD_DIR ++ "/"`), and the write then raises an
uncaught `IsADirectoryError` instead of returning a gateway error. -/
theorem empty_filename_policy (req : UploadReq) (ct : String)
    (hct : req.contentType = some ct)
    (hmp : parseHeaderType ct = "multipart/form-data")
    (hb : req.hasBoundary = true)
    (hf : req.hasFileField = true) :
    (handle_upload req = UpResult.err "Empty filename" ↔
      (req.filename = none ∨ req.filename = some "")) ∧
    (req.filename = some ".." →
      handle_upload req = UpResult.crash "IsADirectoryError" ∧
      storagePath ".." = UPLOAD_DIR ++ "/") := by
  have hred : handle_upload req =
      (match req.filename with
       | none => UpResult.err "Empty filename"
       | some fnv =>
         if fnv = "" then UpResult.err "Empty filename"
         else if pySanitize (basenameStr fnv) = "" then UpResult.crash "IsADirectoryError"
         else UpResult.ok (storagePath fnv)) := by
    simp only [handle_upload, hct, hb, hf]
    rw [if_neg (fun hk => hk hmp)]
    rfl
  rw [hred]
  constructor
  · cases hfn : req.filename with
    | none => simp
    | some fnv =>
      show (if fnv = "" then UpResult.err "Empty filename"
            else if pySanitize (basenameStr fnv) = "" then UpResult.crash "IsADirectoryError"
            else UpResult.ok (storagePath fnv)) = UpResult.err "Empty filename" ↔
        (some fnv = none ∨ some fnv = some "")
      by_cases hv : fnv = ""
      · subst hv; simp
      · rw [if_neg hv]
        constructor
        · intro h
          by_cases hs : pySanitize (basenameStr fnv) = ""
          · rw [if_pos hs] at h; cases h
          · rw [if_neg hs] at h; cases h
        · intro h
          rcases h with h | h
          · cases h
          · rw [Option.some.injEq] at h; exact absurd h hv
  · intro hfn
    rw [hfn]
    exact ⟨rfl, by decide⟩

theorem empty_filename_policy_witness :
    (handle_upload
      { contentType := some "multipart/form-data; boundary=x", hasBoundary := true,
        hasFileField := true, filename := some ".." } = UpResult.crash "IsADirectoryError") ∧
    storagePath ".." = UPLOAD_DIR ++ "/" :=
  (empty_filename_policy
    { contentType := some "multipart/form-data; boundary=x", hasBoundary := true,
      hasFileField := true, filename := some ".." }
    "multipart/form-data; boundary=x" rfl (by decide) rfl rfl).2 rfl

/-- C8: for every decompress job on a pipeline input (an upload-receiver
storage path, which never lies inside the outbound area), the input is
copied into the outbound area under its sanitized base name and the tool is
invoked on that copy; an input path already inside the outbound area is
used as-is; compress-mode inputs are never relocated. -/
theorem decompress_relocation (req : UploadReq) (env : RunEnv) (ip : String)
    (hcli : env.cliFound = true)
    (hup : handle_upload req = UpResult.ok ip) :
    (withinDir OUTPUT_DIR ip = false ∧
     (run_cli env Mode.decompress ip).copied =
       some (ip, pathJoin OUTPUT_DIR (pySanitize (basenameStr ip))) ∧
     (run_cli env Mode.decompress ip).invokedPath =
       pathJoin OUTPUT_DIR (pySanitize (basenameStr ip)) ∧
     withinDir OUTPUT_DIR ((run_cli env Mode.decompress ip).invokedPath) = true) ∧
    (∀ q, withinDir OUTPUT_DIR q = true →
      (run_cli env Mode.decompress q).copied = none ∧
      (run_cli env Mode.decompress q).invokedPath = q) ∧
    (∀ q, (run_cli env Mode.compress q).copied = none ∧
      (run_cli env Mode.compress q).invokedPath = q) := by
  obtain ⟨fn, _, _, hip⟩ := handle_upload_ok hup
  have hdata : ip.data = UPLOAD_DIR.data ++ '/' :: (pySanitize (basenameStr fn)).data := by
    rw [hip]; exact storagePath_data fn
  have hpre : OUTPUT_DIR.data.isPrefixOf ip.data = false := by
    rw [hdata]; exact output_not_prefix_upload _
  have hrel := run_cli_reloc env ip hcli hpre
  refine ⟨⟨?_, hrel.1, hrel.2, ?_⟩, ?_, ?_⟩
  · rw [withinDir, hdata]
    exact output_slash_not_prefix_upload _
  · rw [hrel.2]
    exact withinDir_pathJoin_output _
      (head_ne_slash_of_not_mem (not_slash_mem_pySanitize _))
  · intro q hq
    exact run_cli_no_reloc env Mode.decompress q (Or.inr (startswith_of_within hq))
  · intro q
    exact run_cli_no_reloc env Mode.compress q (Or.inl rfl)

theorem decompress_relocation_witness :
    (run_cli envW Mode.decompress "/app/src/web/uploads/a.txt").copied =
      some ("/app/src/web/uploads/a.txt", "/app/src/web/output/a.txt") ∧
    (run_cli envW Mode.decompress "/app/src/web/uploads/a.txt").invokedPath =
      "/app/src/web/output/a.txt" ∧
    (run_cli envW Mode.compress "/app/src/web/uploads/a.txt").copied = none := by
  have h := decompress_relocation reqA envW "/app/src/web/uploads/a.txt" rfl (by decide)
  exact ⟨h.1.2.1, h.1.2.2.1, (h.2.2 "/app/src/web/uploads/a.txt").1⟩

/-- C1 (amended): the upload storage path lies inside the inbound area and
every decompress relocation target lies inside the outbound area; when no
usable `Output:` line was parsed from the child's stdout, every non-empty
resolved output path lies inside the outbound area as well.  (A path taken
verbatim from a tier-1 `Output:` line, by contrast, is subject to no
containment check at all — see the counterexample.) -/
theorem trust_boundary (req : UploadReq) (env : RunEnv) (mode : Mode)
    (ip st p up : String)
    (hl : ∀ f ∈ env.fs.listOutput, '/' ∉ f.data)
    (hparse : pyFalsy (parseOutputLine st) = true)
    (hup : handle_upload req = UpResult.ok up)
    (hres : resolveOut env.fs mode ip st = some p)
    (hp : p ≠ "") :
    withinDir UPLOAD_DIR up = true ∧
    (∀ q src tgt, (run_cli env Mode.decompress q).copied = some (src, tgt) →
      withinDir OUTPUT_DIR tgt = true) ∧
    withinDir OUTPUT_DIR p = true := by
  refine ⟨?_, ?_, ?_⟩
  · obtain ⟨fn, _, _, hip⟩ := handle_upload_ok hup
    rw [hip]
    exact withinDir_of_data (storagePath_data fn)
  · intro q src tgt hcop
    rcases run_cli_copied_shape env Mode.decompress q with h | h
    · rw [h] at hcop; cases hcop
    · rw [h, Option.some.injEq, Prod.mk.injEq] at hcop
      rw [← hcop.2]
      exact withinDir_pathJoin_output _
        (head_ne_slash_of_not_mem (not_slash_mem_pySanitize _))
  · have htier2 : tier12 mode ip st = some p → withinDir OUTPUT_DIR p = true := by
      intro h12
      rcases tier12_shape mode ip st hparse with h | ⟨b, hb, hbh⟩
      · rw [h] at h12
        rcases pyFalsy_cases hparse with hn | hn <;> rw [hn] at h12
        · cases h12
        · exact absurd (Option.some.injEq _ _ ▸ h12).symm hp
      · rw [hb, Option.some.injEq] at h12
        rw [← h12]
        exact withinDir_pathJoin_output b hbh
    by_cases hcond :
        (pyFalsy (tier12 mode ip st) ||
          !env.fs.pathExists ((tier12 mode ip st).getD "")) = true
    · have hdisp : resolveOut env.fs mode ip st =
          (match tier4 env.fs with
           | some q => some q
           | none => tier12 mode ip st) := by
        simp only [resolveOut]
        rw [if_pos hcond]
      rw [hdisp] at hres
      cases ht4 : tier4 env.fs with
      | some q =>
        rw [ht4] at hres
        have hq : q = p := Option.some.injEq _ _ ▸ hres
        have hmem : q ∈ candidateFiles env.fs := by
          rw [tier4] at ht4
          exact maxByMtime_mem ht4
        rw [← hq]
        exact candidateFiles_within env.fs hl q hmem
      | none =>
        rw [ht4] at hres
        exact htier2 hres
    · have hdisp : resolveOut env.fs mode ip st = tier12 mode ip st := by
        simp only [resolveOut]
        rw [if_neg (by rw [Bool.eq_false_iff.mpr hcond]; exact Bool.false_ne_true)]
      rw [hdisp] at hres
      exact htier2 hres

theorem trust_boundary_witness :
    withinDir UPLOAD_DIR "/app/src/web/uploads/a.txt" = true ∧
    withinDir OUTPUT_DIR "/app/src/web/output/a.txt.comp" = true := by
  have h := trust_boundary reqA envW Mode.compress
    "/app/src/web/uploads/a.txt" "" "/app/src/web/output/a.txt.comp"
    "/app/src/web/uploads/a.txt"
    (by decide) (by decide) (by decide) (by decide) (by decide)
  exact ⟨h.1, h.2.2⟩

/-- C1 (counterexample): a compress request whose child printed
`Output: /etc/passwd` (a path outside both working areas) makes the
gateway open and stream `/etc/passwd` itself — the resolved path is taken
verbatim from the child's stdout with no containment check, violating the
claimed trust boundary. -/
theorem trust_boundary_counterexample :
    do_POST reqA envEvil "/compress" = Outcome.stream "/etc/passwd" "passwd" ∧
    withinDir UPLOAD_DIR "/etc/passwd" = false ∧
    withinDir OUTPUT_DIR "/etc/passwd" = false := by
  refine ⟨by decide, by decide, by decide⟩

/-- C2 (amended): when neither tier 1 nor tier 2 yields an existing file,
the resolver returns the most recently modified regular file of the
non-empty outbound area (tier 4); when the outbound area holds no regular
file, the resolver returns its unresolved tier-1/2 candidate unchanged and
signals no error — no `OutputNotFound`-style failure exists in the code
(see the counterexample for the resulting uncaught crash). -/
theorem tier4_fallback (fs : FS) (mode : Mode) (ip st : String)
    (h12 : pyFalsy (tier12 mode ip st) = true ∨
           fs.pathExists ((tier12 mode ip st).getD "") = false) :
    (candidateFiles fs ≠ [] →
      ∃ p, resolveOut fs mode ip st = some p ∧ p ∈ candidateFiles fs ∧
        ∀ q ∈ candidateFiles fs, fs.mtime q ≤ fs.mtime p) ∧
    (candidateFiles fs = [] → resolveOut fs mode ip st = tier12 mode ip st) := by
  have hdisp : resolveOut fs mode ip st =
      (match tier4 fs with
       | some p => some p
       | none => tier12 mode ip st) := by
    rcases h12 with h | h
    · exact resolveOut_falsy fs mode ip st h
    · exact resolveOut_not_exists fs mode ip st h
  constructor
  · intro hne
    have ht4 : ∃ p, tier4 fs = some p := by
      rw [tier4]
      cases hc : candidateFiles fs with
      | nil => exact absurd hc hne
      | cons x xs => exact ⟨_, rfl⟩
    obtain ⟨p, hp⟩ := ht4
    have hp2 : maxByMtime fs (candidateFiles fs) = some p := by rw [← tier4]; exact hp
    refine ⟨p, ?_, maxByMtime_mem hp2, maxByMtime_ge hp2⟩
    rw [hdisp, hp]
  · intro hc
    have ht4 : tier4 fs = none := by rw [tier4, hc]; rfl
    rw [hdisp, ht4]

theorem tier4_fallback_witness :
    resolveOut fsC6 Mode.compress "/app/src/web/uploads/nope.txt" "" =
      some "/app/src/web/output/other.bin" := by
  have h := (tier4_fallback fsC6 Mode.compress "/app/src/web/uploads/nope.txt" ""
    (Or.inr (by decide))).1 (by decide)
  obtain ⟨p, hp, hmem, hmax⟩ := h
  have hle := hmax "/app/src/web/output/other.bin" (by decide)
  have : p = "/app/src/web/output/file.txt" ∨ p = "/app/src/web/output/other.bin" := by
    have h1 : candidateFiles fsC6 =
        ["/app/src/web/output/file.txt", "/app/src/web/output/other.bin"] := by decide
    rw [h1] at hmem
    rcases List.mem_cons.mp hmem with h2 | h2
    · exact Or.inl h2
    · exact Or.inr (List.mem_singleton.mp h2)
  rcases this with h2 | h2
  · rw [h2] at hle
    exact absurd hle (by decide)
  · rw [← h2, hp]

/-- C2 (counterexample): a compress job whose child printed nothing and
produced nothing leaves the outbound area empty; the resolver returns a
non-existent candidate with no error, `do_POST` proceeds, and the request
dies with an uncaught `FileNotFoundError` at `open(out_path, 'rb')` — not
with the 5xx `OutputNotFound` response the claim describes. -/
theorem output_not_found_counterexample :
    candidateFiles fsEmpty = [] ∧
    do_POST reqA envNoOutput "/compress" = Outcome.crash "FileNotFoundError" := by
  refine ⟨by decide, by decide⟩

/-- C6 (amended): for a decompress job reaching tier 2, the `.comp` suffix
is stripped only on an exact trailing match; when it does not match, no
tier-2 candidate is formed at all — `out_path` keeps the (falsy) tier-1
value rather than the claim's "original base name" — and resolution falls
through to tier 4 directly. -/
theorem decompress_suffix_policy (fs : FS) (ip st : String)
    (hsuf : endsWithComp (basenameStr ip) = false)
    (hparse : pyFalsy (parseOutputLine st) = true) :
    tier12 Mode.decompress ip st = parseOutputLine st ∧
    resolveOut fs Mode.decompress ip st =
      (match tier4 fs with
       | some p => some p
       | none => parseOutputLine st) := by
  have h12 : tier12 Mode.decompress ip st = parseOutputLine st := by
    simp only [tier12, hparse, if_true]
    rw [if_neg (by rw [hsuf]; exact Bool.false_ne_true)]
  refine ⟨h12, ?_⟩
  have hf : pyFalsy (tier12 Mode.decompress ip st) = true := by rw [h12]; exact hparse
  rw [resolveOut_falsy fs Mode.decompress ip st hf, h12]

theorem decompress_suffix_policy_witness :
    tier12 Mode.decompress "/app/src/web/output/file.txt" "" = parseOutputLine "" ∧
    resolveOut fsEmpty Mode.decompress "/app/src/web/output/file.txt" "" =
      (match tier4 fsEmpty with
       | some p => some p
       | none => parseOutputLine "") :=
  decompress_suffix_policy fsEmpty "/app/src/web/output/file.txt" ""
    (by decide) (by decide)

/-- C6 (counterexample): with a relocated decompress input
`output/file.txt` whose name lacks the `.comp` suffix, the code forms no
tier-2 candidate (`tier12` is `none`), while the resolver the claim
describes would take the unmodified base name as the candidate, find it
existing in the outbound area, and return it; the code instead falls to
tier 4 and returns the newer `other.bin`.  The two resolutions disagree on
this realistic state. -/
theorem decompress_suffix_counterexample :
    tier12 Mode.decompress "/app/src/web/output/file.txt" "" = none ∧
    tier12SpecC6 Mode.decompress "/app/src/web/output/file.txt" "" =
      some "/app/src/web/output/file.txt" ∧
    resolveOut fsC6 Mode.decompress "/app/src/web/output/file.txt" "" =
      some "/app/src/web/output/other.bin" ∧
    resolveOutSpecC6 fsC6 Mode.decompress "/app/src/web/output/file.txt" "" =
      some "/app/src/web/output/file.txt" := by
  refine ⟨by decide, by decide, by decide, by decide⟩

end FileCompre
